import Mathlib

/-!
Verification of the NER data pipeline in `src/tner/data.py`
(repository asahi417/transformer-ner).

Files are modelled as lists of lines (each `f.write('...\n')` contributes one
line; a bare `f.write('\n')` contributes an empty line).  Python dicts keyed by
strings are modelled as association lists preserving insertion order, so that
`len(label_to_id)` is the list length.  A Python run that raises an uncaught
exception (`KeyError` on `label_to_id[tag]`, a failing `assert`) is modelled as
`Option.none`.
-/

namespace Tner

/-!
### Python string primitives

The Python string operations the pipeline uses (`strip`, `split`,
`startswith`, `replace`, `lower`, `join`) are modelled over the character
list of a `String`, so that every definition evaluates by kernel
reduction on concrete inputs.
-/

/-- Python `str.strip()`: remove leading and trailing whitespace. -/
def pyStrip (s : String) : String :=
  ⟨((s.data.dropWhile Char.isWhitespace).reverse.dropWhile Char.isWhitespace).reverse⟩

/-- Python `s.startswith(p)`. -/
def pyStartsWith (p s : String) : Bool := p.data.isPrefixOf s.data

/-- Helper for `pySplit`: the chunk before the first occurrence of `sep`
and, when the separator occurs, the remainder after it. -/
def splitChunk (sep : List Char) : List Char → List Char × Option (List Char)
  | [] => ([], none)
  | c :: cs =>
      if sep.isPrefixOf (c :: cs) then ([], some ((c :: cs).drop sep.length))
      else
        match splitChunk sep cs with
        | (chunk, rest) => (c :: chunk, rest)

/-- Fuel-driven repetition of `splitChunk`; the fuel is always at least
the length of the input, so it never runs out. -/
def splitFuel (sep : List Char) : Nat → List Char → List (List Char)
  | 0, l => [l]
  | fuel + 1, l =>
      match splitChunk sep l with
      | (chunk, none) => [chunk]
      | (chunk, some rest) => chunk :: splitFuel sep fuel rest

/-- Python `s.split(sep)` for an explicit separator: splits on every
occurrence, keeping empty chunks (`'a  b'.split(' ') == ['a', '', 'b']`,
`''.split(' ') == ['']`).  Python raises on an empty separator; that case
is mapped to `[s]` and never used. -/
def pySplit (sep s : String) : List String :=
  if sep.data.isEmpty then [s]
  else (splitFuel sep.data (s.data.length + 1) s.data).map (fun l => ⟨l⟩)

/-- Python `s.replace(c, '')` for a one-character pattern: removes every
occurrence of the character. -/
def pyRemoveAll (c : Char) (s : String) : String :=
  ⟨s.data.filter (fun x => x ≠ c)⟩

/-- Python `str.lower()`. -/
def pyLower (s : String) : String := ⟨s.data.map Char.toLower⟩

/-- `STOPWORDS = ['None', '#']` (data.py line 16). -/
def STOPWORDS : List String := ["None", "#"]

/-- `SHARED_NER_LABEL` (data.py lines 35-86), in insertion order. -/
def SHARED_NER_LABEL : List (String × List String) := [
  ("location", ["LOCATION", "LOC", "location", "Location"]),
  ("organization", ["ORGANIZATION", "ORG", "organization"]),
  ("person", ["PERSON", "PSN", "person", "PER"]),
  ("date", ["DATE", "DAT", "YEAR", "Year"]),
  ("time", ["TIME", "TIM", "Hours"]),
  ("artifact", ["ARTIFACT", "ART", "artifact"]),
  ("percent", ["PERCENT", "PNT"]),
  ("other", ["OTHER", "MISC"]),
  ("money", ["MONEY", "MNY", "Price"]),
  ("corporation", ["corporation", "CORP"]),
  ("group", ["group", "NORP", "GRP"]),
  ("product", ["product", "PRODUCT", "PROD"]),
  ("rating", ["Rating", "RATING"]),
  ("amenity", ["Amenity"]),
  ("restaurant", ["Restaurant_Name"]),
  ("dish", ["Dish"]),
  ("cuisine", ["Cuisine"]),
  ("actor", ["ACTOR", "Actor"]),
  ("title", ["TITLE"]),
  ("genre", ["GENRE", "Genre"]),
  ("director", ["DIRECTOR", "Director"]),
  ("song", ["SONG"]),
  ("plot", ["PLOT", "Plot"]),
  ("review", ["REVIEW"]),
  ("character", ["CHARACTER"]),
  ("ratings average", ["RATINGS_AVERAGE"]),
  ("trailer", ["TRAILER"]),
  ("opinion", ["Opinion"]),
  ("award", ["Award"]),
  ("origin", ["Origin"]),
  ("soundtrack", ["Soundtrack"]),
  ("relationship", ["Relationship"]),
  ("character name", ["Character_Name"]),
  ("quote", ["Quote"]),
  ("cardinal number", ["CARDINAL"]),
  ("ordinal number", ["ORDINAL"]),
  ("quantity", ["QUANTITY"]),
  ("law", ["LAW"]),
  ("geopolitical area", ["GPE"]),
  ("work of art", ["WORK_OF_ART", "work-of-art", "creative-work", "CW", "creative"]),
  ("facility", ["FAC"]),
  ("language", ["LANGUAGE"]),
  ("event", ["EVENT"]),
  ("dna", ["DNA"]),
  ("protein", ["protein"]),
  ("cell type", ["cell_type"]),
  ("cell line", ["cell_line"]),
  ("rna", ["RNA"]),
  ("chemical", ["Chemical"]),
  ("disease", ["Disease"])]

/-- A Python `dict` from tag strings to ids, as an insertion-ordered
association list.  `len(d)` is the list length. -/
abbrev LabelDict := List (String × Nat)

/-- `tag in label_to_id.keys()` / `label_to_id[tag]`: first binding wins
(keys are unique in a Python dict). -/
def lookupDict (d : LabelDict) (k : String) : Option Nat :=
  (d.find? (fun p => p.1 = k)).map Prod.snd

/-- `id_to_label = {v: k for k, v in label_to_id.items()}` (line 475):
a later pair with the same value overwrites an earlier one, so the lookup
scans the reversed list.  Total with default `""` (never reached for ids
drawn from the dict's values). -/
def idToLabelD (d : LabelDict) (i : Nat) : String :=
  ((d.reverse.find? (fun p => p.2 = i)).map Prod.fst).getD ""

/-- `[k for k, v in SHARED_NER_LABEL.items() if mention in v]` taken at
index 0 (line 455): the first entry whose synonym list contains `mention`. -/
def fixedMentionLookup (mention : String) : Option String :=
  (SHARED_NER_LABEL.find? (fun p => p.2.contains mention)).map Prod.fst

/-- Tag normalisation for one non-skipped token (data.py lines 445-465).
Input: the running `past_mention` and the raw `tag`; output: the tag that is
looked up in `label_to_id`, and the new `past_mention`. -/
def convertTag (to_bio keep_original_surface allow_new_entity : Bool)
    (past_mention tag : String) : String × String :=
  if tag ≠ "O" then
    let parts := pySplit "-" tag
    let mention := String.intercalate "-" (parts.drop 1)
    let newTag :=
      if ¬ keep_original_surface then
        let location0 := parts.headD ""
        let location :=
          if to_bio && decide (mention = past_mention) then "I"
          else if to_bio then "B"
          else location0
        match fixedMentionLookup mention with
        | none => if allow_new_entity then String.intercalate "-" [location, mention] else "O"
        | some k => String.intercalate "-" [location, k]
      else tag
    (newTag, mention)
  else (tag, "O")

/-- Vocabulary policy (data.py lines 467-471): under a frozen dict an
unknown tag becomes `"O"`; otherwise an unknown tag is appended with id
`len(label_to_id)`. -/
def resolveTag (fix_label_dict : Bool) (d : LabelDict) (tag : String) :
    LabelDict × String :=
  if (lookupDict d tag).isNone && fix_label_dict then (d, "O")
  else if (lookupDict d tag).isNone && !fix_label_dict then (d ++ [(tag, d.length)], tag)
  else (d, tag)

/-- Column split of a token line (data.py lines 428-438): split on single
spaces, drop `'_'` columns, require at least two columns, then take
tag-first or token-first orientation.  `none` means the line is skipped. -/
def parseTokens (entity_first : Bool) (line : String) : Option (String × String) :=
  let ls := (pySplit " " line).filter (fun i => i ≠ "_")
  if ls.length < 2 then none
  else if entity_first then some (String.intercalate " " ((ls.drop 1).dropLast), ls.headD "")
  else some (String.intercalate " " ls.dropLast, ls.getLastD "")

/-- `line.split('"created_at": ')[-1].replace('"', '')` (line 417). -/
def parseDate (line : String) : String :=
  pyRemoveAll '"' ((pySplit "\"created_at\": " line).getLastD "")

/-- The loop state of `decode_file` (data.py lines 402-408). -/
structure DecodeState where
  inputs : List (List String)
  labels : List (List Nat)
  dates : List String
  label_to_id : LabelDict
  past_mention : String
  sentence : List String
  entity : List Nat
deriving Repr, DecidableEq

def initState (d : LabelDict) : DecodeState :=
  { inputs := [], labels := [], dates := [], label_to_id := d,
    past_mention := "O", sentence := [], entity := [] }

/-- Sentence close-out (data.py lines 421-426).  The `assert
len(sentence) == len(entity)` there is provably always true (see the C1
theorem), so it is a no-op and not modelled as a failure. -/
def flush (st : DecodeState) : DecodeState :=
  if st.sentence.length ≠ 0 then
    { st with inputs := st.inputs ++ [st.sentence],
              labels := st.labels ++ [st.entity],
              sentence := [], entity := [] }
  else st

/-- Handling of one accepted `(word, tag)` column pair
(data.py lines 439-473).  `none` models the `KeyError` from
`label_to_id[tag]` when the tag (after resolution) is not in the dict. -/
def tokenStep (fix_label_dict to_bio allow_new_entity keep_original_surface : Bool)
    (st : DecodeState) (word tag : String) : Option DecodeState :=
  if tag = "junk" then some st
  else if STOPWORDS.contains word then some st
  else
    match lookupDict
        (resolveTag fix_label_dict st.label_to_id
          (convertTag to_bio keep_original_surface allow_new_entity st.past_mention tag).1).1
        (resolveTag fix_label_dict st.label_to_id
          (convertTag to_bio keep_original_surface allow_new_entity st.past_mention tag).1).2 with
    | none => none
    | some i =>
        some { st with
               sentence := st.sentence ++ [word],
               entity := st.entity ++ [i],
               label_to_id :=
                 (resolveTag fix_label_dict st.label_to_id
                   (convertTag to_bio keep_original_surface allow_new_entity
                     st.past_mention tag).1).1,
               past_mention :=
                 (convertTag to_bio keep_original_surface allow_new_entity
                   st.past_mention tag).2 }

/-- The dispatch on one already-stripped line (data.py lines 411-473). -/
def processStripped (fix_label_dict entity_first to_bio allow_new_entity
    keep_original_surface : Bool) (st : DecodeState) (line : String) :
    Option DecodeState :=
  if pyStartsWith "# id " line then some st
  else if pyStartsWith "# \"id\":" line then
    some { st with dates := st.dates ++ [parseDate line] }
  else if line = "" || pyStartsWith "-DOCSTART-" line then some (flush st)
  else
    match parseTokens entity_first line with
    | none => some st
    | some (word, tag) =>
        tokenStep fix_label_dict to_bio allow_new_entity keep_original_surface st word tag

/-- One iteration of the line loop of `decode_file` (data.py lines
409-473): `line = line.strip()` and then the dispatch. -/
def processLine (fix_label_dict entity_first to_bio allow_new_entity
    keep_original_surface : Bool) (st : DecodeState) (rawLine : String) :
    Option DecodeState :=
  processStripped fix_label_dict entity_first to_bio allow_new_entity
    keep_original_surface st (pyStrip rawLine)

/-- The `for n, line in enumerate(f)` loop of `decode_file`
(data.py lines 409-473), with exception propagation. -/
def decodeLines (fix_label_dict entity_first to_bio allow_new_entity
    keep_original_surface : Bool) :
    DecodeState → List String → Option DecodeState
  | st, [] => some st
  | st, l :: ls =>
      match processLine fix_label_dict entity_first to_bio allow_new_entity
          keep_original_surface st l with
      | none => none
      | some st2 =>
          decodeLines fix_label_dict entity_first to_bio allow_new_entity
            keep_original_surface st2 ls

/-- `set(label_to_id.values()) - set(list(chain(*labels)))` pushed through
`id_to_label` (data.py lines 476-477). -/
def unseenEntityLabel (d : LabelDict) (labels : List (List Nat)) : Finset String :=
  (((d.map Prod.snd).toFinset) \ labels.flatten.toFinset).image (idToLabelD d)

/-- The value returned by `decode_file` (data.py lines 475-482): the
(possibly grown) vocabulary, the unseen-label set, and the split fragment;
`date = none` models the record without a `"date"` key. -/
structure DecodeResult where
  label_to_id : LabelDict
  unseen : Finset String
  data : List (List String)
  label : List (List Nat)
  date : Option (List String)
deriving DecidableEq

/-- `decode_file` (data.py lines 394-482) on a file given as its list of
lines.  There is no flush after the line loop: a trailing in-progress
sentence is dropped.  The final `assert len(dates) == len(labels) ==
len(inputs)` (line 479) can genuinely fail and is modelled as `none`. -/
def decode_file (fix_label_dict entity_first to_bio allow_new_entity
    keep_original_surface : Bool) (label_to_id : LabelDict)
    (lines : List String) : Option DecodeResult :=
  match decodeLines fix_label_dict entity_first to_bio allow_new_entity
      keep_original_surface (initState label_to_id) lines with
  | none => none
  | some st =>
      let d := st.label_to_id
      if st.dates.length ≠ 0 then
        if st.dates.length = st.labels.length ∧ st.labels.length = st.inputs.length then
          some ⟨d, unseenEntityLabel d st.labels, st.inputs, st.labels, some st.dates⟩
        else none
      else some ⟨d, unseenEntityLabel d st.labels, st.inputs, st.labels, none⟩

/-! ## `decode_all_files` and `get_dataset`: unseen-label accumulation -/

/-- One update of `unseen_entity` in `decode_all_files` (data.py lines
500-503): a `None` sentinel, then plain intersection. -/
def decodeAllFilesUnseenStep (acc : Option (Finset String)) (ues : Finset String) :
    Option (Finset String) :=
  match acc with
  | none => some ues
  | some a => some (a ∩ ues)

/-- The accumulation of per-file unseen-label sets over the splits in
`decode_all_files` (data.py lines 494-503). -/
def decode_all_files_unseen_fold (sets : List (Finset String)) : Option (Finset String) :=
  sets.foldl decodeAllFilesUnseenStep none

/-- One update of `unseen_entity_set` in `get_dataset` (data.py line 162):
`ues if len(unseen_entity_set) == 0 else unseen_entity_set.intersection(ues)`. -/
def getDatasetUnseenStep (acc ues : Finset String) : Finset String :=
  if acc.card = 0 then ues else acc ∩ ues

/-- The accumulation of per-dataset unseen-label sets in `get_dataset`
(data.py lines 156-162), starting from the empty dict literal `{}`. -/
def get_dataset_unseen_fold (sets : List (Finset String)) : Finset String :=
  sets.foldl getDatasetUnseenStep ∅

/-- Plain set intersection of a nonempty list of sets, following the spec's
words "a label is unseen overall only if it is unseen in every dataset". -/
def interAll (sets : List (Finset String)) : Finset String :=
  sets.tail.foldl (fun a b => a ∩ b) (sets.headD ∅)

/-! ## `get_dataset`: language majority vote (data.py lines 170-172) -/

/-- `len(list(filter(lambda y: y == x, languages)))`. -/
def langFreq (languages : List String) (x : String) : Nat :=
  (languages.filter (fun y => y = x)).length

/-- The comparison used by `sorted(freq, key=lambda x: x[1], reverse=True)`:
descending on the count component. -/
def byFreqDesc : String × Nat → String × Nat → Prop := fun p q => q.2 ≤ p.2

instance : DecidableRel byFreqDesc := fun p q => Nat.decLe q.2 p.2

instance : IsTotal (String × Nat) byFreqDesc := ⟨fun a b => Nat.le_total b.2 a.2⟩

instance : IsTrans (String × Nat) byFreqDesc := ⟨fun _ _ _ hab hbc => le_trans hbc hab⟩

/-- `sorted(freq, key=lambda x: x[1], reverse=True)[0][0]` where
`freq = [(x, count) for x in set(languages)]` (data.py lines 171-172).
Python's `set(languages)` iterates in an order determined by string
hashing, which is unspecified; it is passed here as the explicit
parameter `enum`.  `sorted(..., reverse=True)` is a stable descending
sort, modelled by insertion sort with the ≥-on-count relation. -/
def chooseLanguage (enum : List String) (languages : List String) : String :=
  ((List.insertionSort byFreqDesc
      (enum.map (fun x => (x, langFreq languages x)))).headD ("", 0)).1

/-! ## `get_dataset_single`: the lower-casing rebuild (data.py lines 386-390) -/

/-- One value of `data_split_all`: the dict returned by `decode_file` for a
split.  `date = none` models a record with only the keys `data`/`label`. -/
structure SplitRecord where
  data : List (List String)
  label : List (List Nat)
  date : Option (List String)
deriving Repr, DecidableEq

/-- The `if lower_case:` rebuild at the end of `get_dataset_single`
(data.py lines 386-390): with `lower_case` the whole mapping is rebuilt as
`{k: {'data': lowercased, 'label': v['label']}}` — a fresh record holding
only `data` and `label` — otherwise `data_split_all` is left untouched. -/
def applyLowerCase (lower_case : Bool) (splits : List (String × SplitRecord)) :
    List (String × SplitRecord) :=
  if lower_case then
    splits.map (fun kv =>
      (kv.1, { data := kv.2.data.map (fun sent => sent.map pyLower),
               label := kv.2.label,
               date := none }))
  else splits

/-! ## `conll_formatting` (data.py lines 512-541) -/

/-- `if sentence_division and __token == sentence_division` (line 534):
Python truthiness makes `None` and `''` both fail the first conjunct. -/
def divisionHit (sentence_division : Option String) (w : String) : Bool :=
  match sentence_division with
  | none => false
  | some s => s ≠ "" && w = s

/-- The body of the inner token loop (data.py lines 531-536), acting on
the written lines and the `_end` flag. -/
def conllWriteToken (sentence_division : Option String)
    (acc : List String × Bool) (wt : String × String) : List String × Bool :=
  let lines := acc.1 ++ [wt.1 ++ " " ++ wt.2]
  if divisionHit sentence_division wt.1 then (lines ++ [""], true) else (lines, false)

/-- One iteration of the outer sentence loop (data.py lines 529-541). -/
def conllWriteSentence (sentence_division : Option String)
    (acc : List String × Bool) (sent : List String × List String) :
    List String × Bool :=
  let acc2 := (sent.1.zip sent.2).foldl (conllWriteToken sentence_division) acc
  if acc2.2 then (acc2.1, false) else (acc2.1 ++ [""], true)

/-- `conll_formatting` (data.py lines 512-541) on in-memory `tokens`/`tags`,
returning the written file as its list of lines.  The `assert tokens and
tags`, `assert len(tokens) == len(tags)` and per-sentence length asserts
are modelled as `none`. -/
def conll_formatting (tokens tags : List (List String))
    (sentence_division : Option String) : Option (List String) :=
  if tokens ≠ [] ∧ tags ≠ [] ∧ tokens.length = tags.length ∧
      (tokens.zip tags).all (fun p => p.1.length = p.2.length) then
    some (((tokens.zip tags).foldl (conllWriteSentence sentence_division) ([], false)).1)
  else none

/-! ## Length invariant of `decode_file` (C1) -/

/-- The invariant relating the accumulated sentences to their label-id
sequences: the closed sentences come in parallel pairs of equal length and
the in-progress sentence keeps pace with its in-progress labels. -/
def lenInv (st : DecodeState) : Prop :=
  List.Forall₂ (fun (s : List String) (e : List Nat) => s.length = e.length)
    st.inputs st.labels ∧
  st.sentence.length = st.entity.length

theorem lenInv_initState (d : LabelDict) : lenInv (initState d) :=
  ⟨List.Forall₂.nil, rfl⟩

theorem lenInv_flush {st : DecodeState} (h : lenInv st) : lenInv (flush st) := by
  unfold flush
  split
  · exact ⟨List.rel_append h.1 (List.Forall₂.cons h.2 List.Forall₂.nil), rfl⟩
  · exact h

theorem lenInv_tokenStep {fix tb an ko : Bool} {st st' : DecodeState} {w t : String}
    (h : tokenStep fix tb an ko st w t = some st') (hi : lenInv st) : lenInv st' := by
  unfold tokenStep at h
  split at h
  · cases h; exact hi
  · split at h
    · cases h; exact hi
    · split at h
      · exact Option.noConfusion h
      · cases h
        exact ⟨hi.1, by simp [hi.2]⟩

theorem lenInv_processStripped {fix ef tb an ko : Bool} {st st' : DecodeState}
    {l : String}
    (h : processStripped fix ef tb an ko st l = some st') (hi : lenInv st) :
    lenInv st' := by
  unfold processStripped at h
  split at h
  · cases h; exact hi
  · split at h
    · cases h; exact hi
    · split at h
      · cases h; exact lenInv_flush hi
      · split at h
        · cases h; exact hi
        · exact lenInv_tokenStep h hi

theorem lenInv_processLine {fix ef tb an ko : Bool} {st st' : DecodeState} {l : String}
    (h : processLine fix ef tb an ko st l = some st') (hi : lenInv st) : lenInv st' :=
  lenInv_processStripped h hi

theorem lenInv_decodeLines {fix ef tb an ko : Bool} {st st' : DecodeState}
    {ls : List String}
    (h : decodeLines fix ef tb an ko st ls = some st') (hi : lenInv st) : lenInv st' := by
  induction ls generalizing st with
  | nil => cases h; exact hi
  | cons l ls ih =>
      unfold decodeLines at h
      split at h
      · exact Option.noConfusion h
      · exact ih h (lenInv_processLine (by assumption) hi)

/-- C1: every sentence returned by `decode_file` has as many tokens as
label ids — for each `i`, `len(data[i]) == len(label[i])` — no matter
which lines were skipped (headers, metadata, `junk` tags, stopwords,
underscore columns). -/
theorem decode_file_token_label_parallel (fix ef tb an ko : Bool) (d : LabelDict)
    (lines : List String) (res : DecodeResult)
    (h : decode_file fix ef tb an ko d lines = some res) :
    res.data.length = res.label.length ∧
      ∀ i (h1 : i < res.data.length) (h2 : i < res.label.length),
        (res.data.get ⟨i, h1⟩).length = (res.label.get ⟨i, h2⟩).length := by
  unfold decode_file at h
  split at h
  · exact Option.noConfusion h
  · rename_i st heq
    have hinv : lenInv st := lenInv_decodeLines heq (lenInv_initState d)
    have hres : res.data = st.inputs ∧ res.label = st.labels := by
      split at h
      · split at h
        · cases h; exact ⟨rfl, rfl⟩
        · exact Option.noConfusion h
      · cases h; exact ⟨rfl, rfl⟩
    have := List.forall₂_iff_get.mp hinv.1
    rw [hres.1, hres.2]
    exact this

/-- C1 witness: the theorem applied at a concrete one-sentence file. -/
theorem decode_file_token_label_parallel_witness :
    (DecodeResult.mk [("O", 0)] ∅ [["A"]] [[0]] none).data.length =
        (DecodeResult.mk [("O", 0)] ∅ [["A"]] [[0]] none).label.length ∧
      ∀ i (h1 : i < (DecodeResult.mk [("O", 0)] ∅ [["A"]] [[0]] none).data.length)
        (h2 : i < (DecodeResult.mk [("O", 0)] ∅ [["A"]] [[0]] none).label.length),
        ((DecodeResult.mk [("O", 0)] ∅ [["A"]] [[0]] none).data.get ⟨i, h1⟩).length =
          ((DecodeResult.mk [("O", 0)] ∅ [["A"]] [[0]] none).label.get ⟨i, h2⟩).length :=
  decode_file_token_label_parallel false false false false false [] ["A O", ""]
    (DecodeResult.mk [("O", 0)] ∅ [["A"]] [[0]] none) (by decide)

/-! ## End-of-file behaviour (C2) -/

theorem decodeLines_append {fix ef tb an ko : Bool} (st : DecodeState)
    (l1 l2 : List String) :
    decodeLines fix ef tb an ko st (l1 ++ l2) =
      (decodeLines fix ef tb an ko st l1).bind
        (fun st2 => decodeLines fix ef tb an ko st2 l2) := by
  induction l1 generalizing st with
  | nil => rfl
  | cons l ls ih =>
      simp only [List.cons_append, decodeLines]
      cases processLine fix ef tb an ko st l with
      | none => rfl
      | some st2 => exact ih st2

theorem flush_of_ne {st : DecodeState} (hne : st.sentence ≠ []) :
    flush st = { st with inputs := st.inputs ++ [st.sentence],
                         labels := st.labels ++ [st.entity],
                         sentence := [], entity := [] } := by
  unfold flush
  rw [if_pos (fun h0 => hne (List.length_eq_zero.mp h0))]

theorem flush_dates (st : DecodeState) : (flush st).dates = st.dates := by
  unfold flush
  split <;> rfl

/-- C2 is false as stated: a file whose last token line is not followed by
a blank line loses its trailing sentence — `decode_file` on the single
line `"A O"` returns no sentence at all instead of appending `["A"]`. -/
theorem decode_file_eof_drops_trailing_sentence_cex :
    (decode_file false false false false false [] ["A O"]).map DecodeResult.data =
        some [] ∧
      (decode_file false false false false false [] ["A O"]).map DecodeResult.data ≠
        some [["A"]] := by
  decide

/-- C2 (amended): at end of file the in-progress sentence is NOT flushed:
the returned sentences are exactly those closed by a blank or document
boundary line during the loop.  Appending one blank line to the file makes
the pending sentence appear as the final sentence. -/
theorem decode_file_eof_flush_amended (fix ef tb an ko : Bool) (d : LabelDict)
    (lines : List String) (st : DecodeState)
    (h : decodeLines fix ef tb an ko (initState d) lines = some st)
    (hne : st.sentence ≠ []) (hd : st.dates = []) :
    (decode_file fix ef tb an ko d lines).map DecodeResult.data = some st.inputs ∧
      (decode_file fix ef tb an ko d (lines ++ [""])).map DecodeResult.data =
        some (st.inputs ++ [st.sentence]) := by
  have hblank : ∀ st0 : DecodeState,
      decodeLines fix ef tb an ko st0 [""] = some (flush st0) := fun _ => rfl
  constructor
  · unfold decode_file
    rw [h]
    simp [hd]
  · unfold decode_file
    rw [decodeLines_append, h]
    simp only [Option.some_bind]
    rw [hblank st, flush_of_ne hne]
    simp [hd]

/-- C2 witness: the amended theorem at the concrete file `["A O"]`. -/
theorem decode_file_eof_flush_amended_witness :
    (decode_file false false false false false [] ["A O"]).map DecodeResult.data =
        some [] ∧
      (decode_file false false false false false [] (["A O"] ++ [""])).map
          DecodeResult.data =
        some ([] ++ [["A"]]) :=
  decode_file_eof_flush_amended false false false false false [] ["A O"]
    (DecodeState.mk [] [] [] [("O", 0)] "O" ["A"] [0]) (by decide) (by decide) (by decide)

/-! ## Frozen vocabulary (C3) -/

theorem resolveTag_fix_fst (d : LabelDict) (x : String) :
    (resolveTag true d x).1 = d := by
  unfold resolveTag
  split
  · rfl
  · split
    · rename_i h2
      simp at h2
    · rfl

theorem flush_label_to_id (st : DecodeState) : (flush st).label_to_id = st.label_to_id := by
  unfold flush
  split <;> rfl

theorem dictInv_tokenStep {tb an ko : Bool} {st st' : DecodeState} {w t : String}
    (h : tokenStep true tb an ko st w t = some st') :
    st'.label_to_id = st.label_to_id := by
  unfold tokenStep at h
  split at h
  · cases h; rfl
  · split at h
    · cases h; rfl
    · split at h
      · exact Option.noConfusion h
      · cases h
        exact resolveTag_fix_fst _ _

theorem dictInv_processLine {ef tb an ko : Bool} {st st' : DecodeState} {l : String}
    (h : processLine true ef tb an ko st l = some st') :
    st'.label_to_id = st.label_to_id := by
  unfold processLine processStripped at h
  split at h
  · cases h; rfl
  · split at h
    · cases h; rfl
    · split at h
      · cases h; exact flush_label_to_id st
      · split at h
        · cases h; rfl
        · exact dictInv_tokenStep h

theorem dictInv_decodeLines {ef tb an ko : Bool} {st st' : DecodeState}
    {ls : List String}
    (h : decodeLines true ef tb an ko st ls = some st') :
    st'.label_to_id = st.label_to_id := by
  induction ls generalizing st with
  | nil => cases h; rfl
  | cons l ls ih =>
      unfold decodeLines at h
      split at h
      · exact Option.noConfusion h
      · rename_i st2 heq
        exact (ih h).trans (dictInv_processLine heq)

/-- C3: with `fix_label_dict=True` the returned vocabulary is exactly the
supplied one (no key added, removed or remapped), and a tag that the
vocabulary does not contain is resolved to `"O"`, so the id appended for
it is the id the vocabulary gives to `"O"`. -/
theorem decode_file_fix_label_dict_frozen (ef tb an ko : Bool) (d : LabelDict)
    (lines : List String) (res : DecodeResult)
    (h : decode_file true ef tb an ko d lines = some res) :
    res.label_to_id = d ∧
      (∀ tag, lookupDict d tag = none → resolveTag true d tag = (d, "O")) ∧
      ∀ (st st' : DecodeState) (w tag : String),
        st.label_to_id = d → tag ≠ "junk" → STOPWORDS.contains w = false →
        lookupDict d (convertTag tb ko an st.past_mention tag).1 = none →
        tokenStep true tb an ko st w tag = some st' →
        ∃ oid, lookupDict d "O" = some oid ∧ st'.entity = st.entity ++ [oid] := by
  refine ⟨?_, ?_, ?_⟩
  · unfold decode_file at h
    split at h
    · exact Option.noConfusion h
    · rename_i st heq
      have hdict : st.label_to_id = d := by
        have := dictInv_decodeLines heq
        simpa [initState] using this
      have hres : res.label_to_id = st.label_to_id := by
        split at h
        · split at h
          · cases h; rfl
          · exact Option.noConfusion h
        · cases h; rfl
      exact hres.trans hdict
  · intro tag htag
    unfold resolveTag
    simp [htag]
  · intro st st' w tag hst hj hw habs hts
    unfold tokenStep at hts
    rw [if_neg hj] at hts
    rw [hw] at hts
    simp only [Bool.false_eq_true, if_false] at hts
    have hres : resolveTag true st.label_to_id
        (convertTag tb ko an st.past_mention tag).1 = (st.label_to_id, "O") := by
      unfold resolveTag
      simp [hst, habs]
    rw [hres] at hts
    cases hoid : lookupDict st.label_to_id "O" with
    | none => rw [hoid] at hts; exact Option.noConfusion hts
    | some oid =>
        rw [hoid] at hts
        cases hts
        exact ⟨oid, by rw [← hst]; exact hoid, rfl⟩

/-- C3 witness: the theorem at a concrete frozen decode. -/
theorem decode_file_fix_label_dict_frozen_witness :
    (DecodeResult.mk [("O", 0)] ∅ [["A"]] [[0]] none).label_to_id = [("O", 0)] ∧
      (∀ tag, lookupDict [("O", 0)] tag = none →
        resolveTag true [("O", 0)] tag = ([("O", 0)], "O")) ∧
      ∀ (st st' : DecodeState) (w tag : String),
        st.label_to_id = [("O", 0)] → tag ≠ "junk" → STOPWORDS.contains w = false →
        lookupDict [("O", 0)] (convertTag false false false st.past_mention tag).1 = none →
        tokenStep true false false false st w tag = some st' →
        ∃ oid, lookupDict [("O", 0)] "O" = some oid ∧ st'.entity = st.entity ++ [oid] :=
  decode_file_fix_label_dict_frozen false false false false [("O", 0)] ["A B-PER", ""]
    (DecodeResult.mk [("O", 0)] ∅ [["A"]] [[0]] none) (by decide)

/-! ## BIO repair under `to_bio` (C4) -/

theorem intercalatePair (s x y : String) : String.intercalate s [x, y] = x ++ s ++ y := rfl

/-- C4: with `to_bio=True` (and `allow_new_entity=True`, the value every
caller in `get_dataset_single` passes) the prefix of a non-`"O"` tag is
recomputed as `"I"` exactly when the tag's mention equals the running
previous mention and `"B"` otherwise; on the concrete sentence with raw
tags `I-PER, I-PER, O, I-PER` the decoded canonical tags are
`B-person, I-person, O, B-person`, i.e. prefixes B, I, (none), B. -/
theorem convertTag_to_bio_b_i (past tag : String) (h : tag ≠ "O") :
    (∃ body, (convertTag true false true past tag).1 =
        (if String.intercalate "-" ((pySplit "-" tag).drop 1) = past then "I" else "B")
          ++ "-" ++ body) ∧
      (decode_file false false true true false []
          ["t1 I-PER", "t2 I-PER", "t3 O", "t4 I-PER", ""]).map
        (fun r => (r.label, r.label_to_id)) =
      some ([[0, 1, 2, 0]], [("B-person", 0), ("I-person", 1), ("O", 2)]) := by
  constructor
  · unfold convertTag
    rw [if_pos h]
    cases hfm : fixedMentionLookup (String.intercalate "-" ((pySplit "-" tag).drop 1)) with
    | none =>
        refine ⟨String.intercalate "-" ((pySplit "-" tag).drop 1), ?_⟩
        simp only [List.drop_one] at hfm ⊢
        by_cases hm : String.intercalate "-" (pySplit "-" tag).tail = past
        · rw [hm] at hfm
          simp [hfm, hm, intercalatePair]
        · simp [hfm, hm, intercalatePair]
    | some k =>
        refine ⟨k, ?_⟩
        simp only [List.drop_one] at hfm ⊢
        by_cases hm : String.intercalate "-" (pySplit "-" tag).tail = past
        · rw [hm] at hfm
          simp [hfm, hm, intercalatePair]
        · simp [hfm, hm, intercalatePair]
  · decide

/-- C4 witness: the theorem at `past = "PER"`, `tag = "I-PER"`. -/
theorem convertTag_to_bio_b_i_witness :
    (∃ body, (convertTag true false true "PER" "I-PER").1 =
        (if String.intercalate "-" ((pySplit "-" "I-PER").drop 1) = "PER" then "I" else "B")
          ++ "-" ++ body) ∧
      (decode_file false false true true false []
          ["t1 I-PER", "t2 I-PER", "t3 O", "t4 I-PER", ""]).map
        (fun r => (r.label, r.label_to_id)) =
      some ([[0, 1, 2, 0]], [("B-person", 0), ("I-person", 1), ("O", 2)]) :=
  convertTag_to_bio_b_i "PER" "I-PER" (by decide)

/-! ## The `past_mention` state across sentence boundaries (C8) -/

theorem flush_past_mention (st : DecodeState) :
    (flush st).past_mention = st.past_mention := by
  unfold flush
  split <;> rfl

theorem docstart_not_header {s : String}
    (h : pyStartsWith "-DOCSTART-" s = true) :
    pyStartsWith "# id " s = false ∧ pyStartsWith "# \"id\":" s = false := by
  unfold pyStartsWith at h ⊢
  cases hd : s.data with
  | nil => rw [hd] at h; exact absurd h (by decide)
  | cons c cs =>
      rw [hd] at h
      rw [show ("-DOCSTART-").data = '-' :: ("DOCSTART-").data from rfl] at h
      simp only [List.isPrefixOf, Bool.and_eq_true] at h
      have hc : c = '-' := (eq_of_beq h.1).symm
      subst hc
      exact ⟨rfl, rfl⟩

/-- C8 is false as stated: `past_mention` is NOT reset at sentence
boundaries.  In the two-sentence file `a I-PER / (blank) / b I-PER` the
second, sentence-initial `I-PER` keeps prefix `I` (decoding to a new
label `I-person`) because its mention equals the last mention of the
previous sentence. -/
theorem past_mention_sentence_boundary_cex :
    (decode_file false false true true false [] ["a I-PER", "", "b I-PER", ""]).map
        (fun r => (r.label, r.label_to_id)) =
      some ([[0], [1]], [("B-person", 0), ("I-person", 1)]) ∧
    idToLabelD [("B-person", 0), ("I-person", 1)] 1 = "I-person" := by
  decide

/-- C8 (amended): `past_mention` is initialised to `"O"` at the start of a
file's decode and reset whenever a token's raw tag is `"O"`, but it is NOT
reset at sentence boundaries: a blank or `-DOCSTART-` line flushes the
sentence and leaves `past_mention` unchanged, so a sentence-initial I-tag
whose mention equals the previous sentence's last mention keeps prefix I
under `to_bio`. -/
theorem past_mention_reset_amended (fix ef tb an ko : Bool) (st : DecodeState)
    (line : String)
    (h : pyStrip line = "" ∨ pyStartsWith "-DOCSTART-" (pyStrip line) = true) :
    (∃ st2, processLine fix ef tb an ko st line = some st2 ∧
        st2.past_mention = st.past_mention) ∧
      (∀ d, (initState d).past_mention = "O") ∧
      (∀ tb2 ko2 an2 past, (convertTag tb2 ko2 an2 past "O").2 = "O") := by
  refine ⟨?_, fun _ => rfl, fun _ _ _ _ => rfl⟩
  refine ⟨flush st, ?_, flush_past_mention st⟩
  unfold processLine processStripped
  cases h with
  | inl h0 => rw [h0]; rfl
  | inr h1 =>
      obtain ⟨hn1, hn2⟩ := docstart_not_header h1
      simp [hn1, hn2, h1]

/-- C8 witness: the amended theorem at a blank line and a state carrying a
previous sentence's mention. -/
theorem past_mention_reset_amended_witness :
    (∃ st2, processLine false false true true false
          (DecodeState.mk [["a"]] [[0]] [] [("B-person", 0)] "PER" ["b"] [1]) "" =
            some st2 ∧
        st2.past_mention =
          (DecodeState.mk [["a"]] [[0]] [] [("B-person", 0)] "PER" ["b"] [1]).past_mention) ∧
      (∀ d, (initState d).past_mention = "O") ∧
      (∀ tb2 ko2 an2 past, (convertTag tb2 ko2 an2 past "O").2 = "O") :=
  past_mention_reset_amended false false true true false
    (DecodeState.mk [["a"]] [[0]] [] [("B-person", 0)] "PER" ["b"] [1]) ""
    (Or.inl (by decide))

/-! ## `KeyError` when the frozen vocabulary lacks `"O"` (C9) -/

/-- C9: calling `decode_file` with `fix_label_dict=True` and a vocabulary
without the key `"O"` raises an uncaught `KeyError` (modelled as `none`)
at the first token whose converted tag is absent from the vocabulary: the
silent coercion of unknown tags presupposes that `"O"` is present. -/
theorem decode_file_missing_O_keyerror (ef tb an ko : Bool) (st : DecodeState)
    (line w tag : String)
    (hO : lookupDict st.label_to_id "O" = none)
    (h1 : pyStartsWith "# id " (pyStrip line) = false)
    (h2 : pyStartsWith "# \"id\":" (pyStrip line) = false)
    (h3 : (pyStrip line = "") = False)
    (h4 : pyStartsWith "-DOCSTART-" (pyStrip line) = false)
    (hp : parseTokens ef (pyStrip line) = some (w, tag))
    (hj : tag ≠ "junk") (hw : STOPWORDS.contains w = false)
    (habs : lookupDict st.label_to_id
        (convertTag tb ko an st.past_mention tag).1 = none) :
    processLine true ef tb an ko st line = none ∧
      decode_file true false false false false [("X", 5)] ["A B-PER"] = none := by
  refine ⟨?_, by decide⟩
  unfold processLine processStripped
  rw [hp]
  have hres : resolveTag true st.label_to_id
      (convertTag tb ko an st.past_mention tag).1 = (st.label_to_id, "O") := by
    unfold resolveTag
    simp [habs]
  simp only [h1, h2, h3, h4, Bool.false_eq_true, if_false, decide_False, Bool.false_or]
  unfold tokenStep
  rw [if_neg hj, hw]
  simp only [Bool.false_eq_true, if_false, hres, hO]

/-- C9 witness: the theorem at the concrete line `"A B-PER"` and the
vocabulary `[("X", 5)]`, which lacks `"O"`. -/
theorem decode_file_missing_O_keyerror_witness :
    processLine true false false false false (initState [("X", 5)]) "A B-PER" = none ∧
      decode_file true false false false false [("X", 5)] ["A B-PER"] = none :=
  decode_file_missing_O_keyerror false false false false (initState [("X", 5)])
    "A B-PER" "A" "B-PER" (by decide) (by decide) (by decide) (by decide) (by decide)
    (by decide) (by decide) (by decide) (by decide)

/-! ## The lower-casing rebuild drops the date field (C10) -/

/-- C10: with `lower_case=True` the rebuild at the end of
`get_dataset_single` produces records holding only `data` and `label`
(modelled as `date = none`), dropping any `date` field `decode_file`
produced; with `lower_case=False` the splits pass through unchanged; and
`decode_file` does produce a `date` field from embedded metadata lines. -/
theorem lower_case_drops_date (splits : List (String × SplitRecord)) (k : String)
    (r : SplitRecord) (hmem : (k, r) ∈ applyLowerCase true splits) :
    r.date = none ∧
      applyLowerCase false splits = splits ∧
      (decode_file false false false false false []
          ["# \"id\": 1, \"created_at\": \"2020\"", "A O", ""]).map DecodeResult.date =
        some (some ["2020"]) := by
  refine ⟨?_, rfl, by decide⟩
  unfold applyLowerCase at hmem
  rw [if_pos rfl] at hmem
  obtain ⟨kv, _, heq⟩ := List.mem_map.mp hmem
  have h2 := congrArg Prod.snd heq
  simp only [Prod.snd] at h2
  rw [← h2]

/-- C10 witness: the theorem at a one-split mapping whose record carries a
date. -/
theorem lower_case_drops_date_witness :
    (SplitRecord.mk [["a"]] [[0]] none).date = none ∧
      applyLowerCase false [("train", SplitRecord.mk [["A"]] [[0]] (some ["2020"]))] =
        [("train", SplitRecord.mk [["A"]] [[0]] (some ["2020"]))] ∧
      (decode_file false false false false false []
          ["# \"id\": 1, \"created_at\": \"2020\"", "A O", ""]).map DecodeResult.date =
        some (some ["2020"]) :=
  lower_case_drops_date [("train", SplitRecord.mk [["A"]] [[0]] (some ["2020"]))]
    "train" (SplitRecord.mk [["a"]] [[0]] none) (by decide)

/-! ## Unseen-label accumulation across datasets (C5) -/

/-- C5 is false as stated: with per-dataset unseen sets `∅` and `{x}` the
`get_dataset` fold returns `{x}`, not the intersection `∅` — an empty
constituent set does not make the overall result empty, because an empty
accumulator is replaced by the next set.  `decode_all_files` (with its
`None` sentinel) does return the true intersection `∅` on the same input. -/
theorem get_dataset_unseen_fold_cex :
    get_dataset_unseen_fold [∅, {"x"}] = ({"x"} : Finset String) ∧
      interAll [∅, {"x"}] = (∅ : Finset String) ∧
      ({"x"} : Finset String) ≠ ∅ ∧
      decode_all_files_unseen_fold [∅, {"x"}] = some (∅ : Finset String) := by
  decide

theorem decode_all_files_fold_some (a : Finset String) (sets : List (Finset String)) :
    sets.foldl decodeAllFilesUnseenStep (some a) =
      some (sets.foldl (fun x y => x ∩ y) a) := by
  induction sets generalizing a with
  | nil => rfl
  | cons s t ih => simpa [decodeAllFilesUnseenStep] using ih (a ∩ s)

theorem get_dataset_fold_ne_inter (t : List (Finset String)) :
    ∀ a : Finset String,
      (∀ k, k < t.length → (t.take k).foldl getDatasetUnseenStep a ≠ ∅) →
      t.foldl getDatasetUnseenStep a = t.foldl (fun x y => x ∩ y) a := by
  induction t with
  | nil => intro a _; rfl
  | cons b t ih =>
      intro a hk
      have ha : a ≠ ∅ := by
        have h0 := hk 0 (Nat.succ_pos _)
        simpa using h0
      have hstep : getDatasetUnseenStep a b = a ∩ b := by
        unfold getDatasetUnseenStep
        rw [if_neg]
        simpa [Finset.card_eq_zero] using ha
      rw [List.foldl_cons, List.foldl_cons, hstep]
      apply ih
      intro k hkl
      have hk1 := hk (k + 1) (Nat.succ_lt_succ hkl)
      simpa [List.take_succ_cons, hstep] using hk1

/-- C5 (amended): `decode_all_files` accumulates unseen-label sets by true
set intersection across splits (a label is unseen overall iff unseen in
every split).  `get_dataset`, however, replaces an EMPTY accumulated set
with the next dataset's set; its result equals the intersection across
datasets only when every intermediate accumulated set is non-empty — in
particular an empty constituent set does not force an empty result. -/
theorem get_dataset_unseen_fold_amended (sets : List (Finset String)) (hne : sets ≠ [])
    (h : ∀ n, n < sets.length → 0 < n → get_dataset_unseen_fold (sets.take n) ≠ ∅) :
    get_dataset_unseen_fold sets = interAll sets ∧
      decode_all_files_unseen_fold sets = some (interAll sets) := by
  obtain ⟨s, t, rfl⟩ := List.exists_cons_of_ne_nil hne
  have hstep0 : getDatasetUnseenStep ∅ s = s := by
    simp [getDatasetUnseenStep]
  constructor
  · show (s :: t).foldl getDatasetUnseenStep ∅ = _
    rw [List.foldl_cons, hstep0]
    refine get_dataset_fold_ne_inter t s ?_
    intro k hkl
    have hk1 := h (k + 1) (Nat.succ_lt_succ hkl) (Nat.succ_pos k)
    simpa [get_dataset_unseen_fold, List.take_succ_cons, hstep0] using hk1
  · show (s :: t).foldl decodeAllFilesUnseenStep none = _
    rw [List.foldl_cons]
    exact decode_all_files_fold_some s t

/-- C5 witness: the amended theorem on two overlapping non-empty sets. -/
theorem get_dataset_unseen_fold_amended_witness :
    get_dataset_unseen_fold [{"a", "b"}, {"b"}] = interAll [{"a", "b"}, {"b"}] ∧
      decode_all_files_unseen_fold [{"a", "b"}, {"b"}] =
        some (interAll [{"a", "b"}, {"b"}]) :=
  get_dataset_unseen_fold_amended [{"a", "b"}, {"b"}] (by decide) (by decide)

/-! ## Language majority vote (C6) -/

/-- C6 is false as stated: the tie-break is the iteration order of
Python's `set(languages)`, not first-encountered order.  For
`languages = ["en", "ja"]` (a 1-1 tie) the enumeration `["en", "ja"]`
yields `"en"` but the equally valid enumeration `["ja", "en"]` of the
same set yields `"ja"`, not the first-encountered tag `"en"`. -/
theorem chooseLanguage_tie_cex :
    chooseLanguage ["ja", "en"] ["en", "ja"] = "ja" ∧
      chooseLanguage ["en", "ja"] ["en", "ja"] = "en" ∧
      ("ja" : String) ≠ "en" := by
  decide

/-- C6 (amended): the returned language tag always has maximal frequency
among the per-dataset language tags — for every enumeration order of the
tag set — but which maximal tag wins a tie depends on the unspecified
enumeration order of `set(languages)`, not on first encounter. -/
theorem chooseLanguage_majority_amended (enum languages : List String)
    (hne : enum ≠ []) (hmem : ∀ x ∈ enum, x ∈ languages)
    (hcover : ∀ x ∈ languages, x ∈ enum) :
    chooseLanguage enum languages ∈ languages ∧
      ∀ l ∈ languages,
        langFreq languages l ≤ langFreq languages (chooseLanguage enum languages) := by
  set fl := enum.map (fun x => (x, langFreq languages x)) with hfl
  have hperm := List.perm_insertionSort byFreqDesc fl
  have hsorted := List.sorted_insertionSort byFreqDesc fl
  obtain ⟨p, tl, hcons⟩ : ∃ p tl, List.insertionSort byFreqDesc fl = p :: tl := by
    cases hs : List.insertionSort byFreqDesc fl with
    | nil =>
        exfalso
        rw [hs] at hperm
        have hfl0 : fl = [] := List.perm_nil.mp hperm.symm
        cases he : enum with
        | nil => exact hne he
        | cons a t => rw [hfl, he] at hfl0; exact List.noConfusion hfl0
    | cons p tl => exact ⟨p, tl, rfl⟩
  have hchoose : chooseLanguage enum languages = p.1 := by
    unfold chooseLanguage
    rw [← hfl, hcons]
    rfl
  have hpmem : p ∈ fl := hperm.subset (hcons ▸ List.mem_cons_self p tl)
  obtain ⟨x, hxenum, hpx⟩ := List.mem_map.mp hpmem
  have hp1 : p.1 = x := by rw [← hpx]
  have hp2 : p.2 = langFreq languages x := by rw [← hpx]
  constructor
  · rw [hchoose, hp1]
    exact hmem x hxenum
  · intro l hl
    have hlfl : (l, langFreq languages l) ∈ fl :=
      List.mem_map_of_mem _ (hcover l hl)
    have hlsorted : (l, langFreq languages l) ∈ p :: tl := by
      rw [← hcons]
      exact hperm.symm.subset hlfl
    have hle : langFreq languages l ≤ p.2 := by
      rcases List.mem_cons.mp hlsorted with heq | htl
      · rw [← heq]
      · have hrel : byFreqDesc p (l, langFreq languages l) :=
          List.rel_of_sorted_cons (hcons ▸ hsorted) _ htl
        exact hrel
    rw [hchoose]
    calc langFreq languages l ≤ p.2 := hle
      _ = langFreq languages p.1 := by rw [hp1, hp2]

/-- C6 witness: the amended theorem at a single-tag list. -/
theorem chooseLanguage_majority_amended_witness :
    chooseLanguage ["en"] ["en"] ∈ ["en"] ∧
      ∀ l ∈ ["en"], langFreq ["en"] l ≤ langFreq ["en"] (chooseLanguage ["en"] ["en"]) :=
  chooseLanguage_majority_amended ["en"] ["en"] (by decide)
    (by intro x hx; simpa using hx) (by intro x hx; simpa using hx)

/-! ## Round-trip through `conll_formatting` and `decode_file` (C7) -/

/-- C7: writing the in-memory token matrix `[["A","."]]` with tag matrix
`[["O","O"]]` through `conll_formatting` with `sentence_division="."` and
then decoding the produced file with `decode_file` and an empty initial
vocabulary reproduces the token sequences `[["A","."]]` and, after mapping
ids back through the returned vocabulary, the tag sequences `[["O","O"]]`. -/
theorem conll_decode_roundtrip :
    ((conll_formatting [["A", "."]] [["O", "O"]] (some ".")).bind
        (fun L => (decode_file false false false false false [] L).map
          (fun r => (r.data, r.label.map (fun l => l.map (idToLabelD r.label_to_id)))))) =
      some ([["A", "."]], [["O", "O"]]) := by
  decide

end Tner
